import Mathlib

/-!
# Verification of the chunked GitHub uploader (`src/app.py`)

A shallow embedding of `upload_with_real_progress` from `src/app.py`.
Bytes are modelled as `Nat` (each byte `< 256`); file contents are
`List Nat`.  The file system is a function from paths to optional
contents (`none` models a missing/unreadable file, i.e. Python's
`IOError` from `os.path.getsize` / `open`), and the HTTP layer is a
function from the PUT request to a response.  The run of one invocation
is recorded as a result (`Except` models Python exceptions escaping the
function), an ordered event trace (file access, HTTP PUT), and the list
of progress-bar updates (`pbar.update(len(chunk))` amounts, in order).
-/

/-- Configuration from `config.CONFIG` (src/app.py lines 7-9):
`GITHUB_TOKEN`, `GITHUB_BRANCH_NAME`, `GITHUB_REPO_NAME`. -/
structure Config where
  githubToken : String
  branchName : String
  repoName : String
deriving DecidableEq, Repr

/-- An HTTP response as seen by the code: `response.status_code` and
`response.text` (src/app.py lines 50-53). -/
structure HttpResponse where
  statusCode : Nat
  text : String
deriving DecidableEq, Repr

/-- The single PUT request issued by `requests.put(url, headers=headers,
json=data)` (src/app.py line 48): the url, the Authorization token from
the headers (the Accept header is the constant
`application/vnd.github.v3+json` and is not modelled), and the three
fields of the JSON body `data` (src/app.py lines 40-44). -/
structure PutRequest where
  url : String
  authToken : String
  message : String
  content : String
  branch : String
deriving DecidableEq, Repr

/-- Errors that escape `upload_with_real_progress` as Python exceptions:
the `ValueError` on a bad repo identifier (src/app.py line 16, the
spec's ConfigurationError) and the `IOError`/`OSError` from
`os.path.getsize`/`open` on a missing or unreadable file (the spec's
IOError). -/
inductive UploadError where
  | configurationError (msg : String)
  | ioError
deriving DecidableEq, Repr

/-- The spec's `UploadResult` tagged variant: the code prints success
for status 200/201 and otherwise prints the status code and response
text (src/app.py lines 50-53); the spec's re-architecture returns this
as a value. -/
inductive UploadResult where
  | success
  | failure (statusCode : Nat) (message : String)
deriving DecidableEq, Repr

/-- Observable I/O events of one invocation, in order: access to the
local file (`os.path.getsize` and the `open`/read, src/app.py lines
20, 28) and the single HTTP PUT (src/app.py line 48). -/
inductive Event where
  | fileRead (path : String)
  | httpPut (req : PutRequest)
deriving DecidableEq, Repr

/-- The recorded run of one invocation: the outcome, the ordered I/O
event trace, and the raw chunk lengths passed to `pbar.update`
(src/app.py line 36), in order. -/
structure RunTrace where
  result : Except UploadError UploadResult
  events : List Event
  progressUpdates : List Nat

/-- A file system: maps a path to its byte contents, `none` when the
file is missing or unreadable. -/
def FileSystem : Type := String → Option (List Nat)

/-- Python's `str.split(sep)` for a one-character separator, on the
character list: splitting the empty string yields `[[]]`, adjacent
separators yield empty segments, exactly as `"a//b".split("/") ==
["a", "", "b"]`. -/
def splitOnChar (sep : Char) : List Char → List (List Char)
  | [] => [[]]
  | c :: cs =>
    match splitOnChar sep cs with
    | [] => if c = sep then [[], [c]] else [[c]]
    | g :: gs => if c = sep then [] :: g :: gs else (c :: g) :: gs

/-- Python's `s.split(sep)` for a one-character separator, as strings. -/
def pySplit (s : String) (sep : Char) : List String :=
  (splitOnChar sep s.data).map String.mk

/-- Python's `sep in s` for a one-character `sep`. -/
def strContains (s : String) (c : Char) : Bool :=
  s.data.any (fun d => d == c)

/-- Python truthiness of an `Optional[str]`: `not owner` is `True` for
`None` and for the empty string (src/app.py line 15). -/
def optStrFalsy : Option String → Bool
  | none => true
  | some s => s.data.isEmpty

/-- Line 12 of src/app.py: `owner = REPO_NAME.split("/")[0] if "/" in
REPO_NAME else None`. -/
def repoOwner (repoName : String) : Option String :=
  if strContains repoName '/' then some ((pySplit repoName '/').getD 0 "") else none

/-- Line 13 of src/app.py: `repo_name = REPO_NAME.split("/")[1] if "/" in
REPO_NAME else REPO_NAME`. -/
def repoShortName (repoName : String) : String :=
  if strContains repoName '/' then (pySplit repoName '/').getD 1 "" else repoName

/-- The `ValueError` message raised at src/app.py line 16. -/
def repoFormatMsg : String := "GITHUB_REPO_NAME must be in 'owner/repo' format."

/-- Line 18 of src/app.py: the f-string
`https://api.github.com/repos/{owner}/{repo_name}/contents/{github_file_path}`. -/
def apiUrl (owner repo_name github_file_path : String) : String :=
  "https://api.github.com/repos/" ++ owner ++ "/" ++ repo_name ++ "/contents/"
    ++ github_file_path

/-- The fixed read size of `f.read(4096)` (src/app.py line 32). -/
def CHUNK_SIZE : Nat := 4096

/-- One step of the read loop per unit of fuel: `chunk = f.read(C)`,
`if not chunk: break` (src/app.py lines 31-34).  The fuel is a bound on
the number of iterations; `chunks` supplies enough. -/
def chunksGo (C : Nat) : Nat → List Nat → List (List Nat)
  | 0, _ => []
  | fuel + 1, l =>
    if (l.take C).isEmpty then [] else l.take C :: chunksGo C fuel (l.drop C)

/-- The sequence of chunks the read loop consumes for a file with the
given contents (src/app.py lines 31-36). -/
def chunks (C : Nat) (l : List Nat) : List (List Nat) :=
  chunksGo C l.length l

/-- The base64 alphabet (RFC 4648), as used by Python's
`base64.b64encode`. -/
def b64Alphabet (i : Nat) : Char :=
  if i < 26 then Char.ofNat (65 + i)
  else if i < 52 then Char.ofNat (97 + (i - 26))
  else if i < 62 then Char.ofNat (48 + (i - 52))
  else if i = 62 then '+'
  else '/'

/-- Python's `base64.b64encode` on a byte string: standard base64 with
`=` padding, three input bytes per four output characters (src/app.py
line 35 applies this to each chunk independently). -/
def b64encode : List Nat → List Char
  | [] => []
  | [b1] =>
    [b64Alphabet (b1 / 4), b64Alphabet (b1 % 4 * 16), '=', '=']
  | [b1, b2] =>
    [b64Alphabet (b1 / 4), b64Alphabet (b1 % 4 * 16 + b2 / 16),
     b64Alphabet (b2 % 16 * 4), '=']
  | b1 :: b2 :: b3 :: rest =>
    b64Alphabet (b1 / 4) :: b64Alphabet (b1 % 4 * 16 + b2 / 16) ::
    b64Alphabet (b2 % 16 * 4 + b3 / 64) :: b64Alphabet (b3 % 64) :: b64encode rest

/-- Value of a base64 alphabet character; `none` for anything outside
the alphabet (in particular for `=`). -/
def b64DigitVal (c : Char) : Option Nat :=
  if 'A' ≤ c ∧ c ≤ 'Z' then some (c.toNat - 65)
  else if 'a' ≤ c ∧ c ≤ 'z' then some (c.toNat - 97 + 26)
  else if '0' ≤ c ∧ c ≤ '9' then some (c.toNat - 48 + 52)
  else if c = '+' then some 62
  else if c = '/' then some 63
  else none

/-- Strict RFC 4648 base64 decoding: the character stream is consumed
in groups of four alphabet characters; `=` padding is accepted only in
the final group.  `none` on any malformed input, in particular on `=`
appearing before the final group. -/
def b64decode : List Char → Option (List Nat)
  | [] => some []
  | [_, _, '='] => none
  | [c1, c2, '=', '='] => do
    let d1 ← b64DigitVal c1
    let d2 ← b64DigitVal c2
    some [d1 * 4 + d2 / 16]
  | [c1, c2, c3, '='] => do
    let d1 ← b64DigitVal c1
    let d2 ← b64DigitVal c2
    let d3 ← b64DigitVal c3
    some [d1 * 4 + d2 / 16, d2 % 16 * 16 + d3 / 4]
  | c1 :: c2 :: c3 :: c4 :: rest => do
    let d1 ← b64DigitVal c1
    let d2 ← b64DigitVal c2
    let d3 ← b64DigitVal c3
    let d4 ← b64DigitVal c4
    let tail ← b64decode rest
    some ((d1 * 4 + d2 / 16) :: (d2 % 16 * 16 + d3 / 4) :: (d3 % 4 * 64 + d4) :: tail)
  | _ => none

/-- Lines 27-38 of src/app.py: the accumulated `encoded_chunks` joined and
decoded to text — `b"".join(encoded_chunks).decode("utf-8")`.  Each
chunk is base64-encoded independently and the encoded bytes are
concatenated. -/
def encodePayload (bytes : List Nat) : String :=
  String.mk ((chunks CHUNK_SIZE bytes).map b64encode).flatten

/-- Lines 18-48 of src/app.py: the PUT request issued for a successfully
read file — url from owner/repo/path, Authorization token, and the JSON
body `{message, content, branch}`. -/
def mkRequest (cfg : Config) (github_file_path commit_message : String)
    (bytes : List Nat) : PutRequest :=
  { url := apiUrl ((repoOwner cfg.repoName).getD "") (repoShortName cfg.repoName)
      github_file_path
    authToken := cfg.githubToken
    message := commit_message
    content := encodePayload bytes
    branch := cfg.branchName }

/-- Lines 50-53 of src/app.py: `response.status_code in [200, 201]` prints
success, anything else prints the status code and `response.text`. -/
def classify (resp : HttpResponse) : UploadResult :=
  if resp.statusCode = 200 ∨ resp.statusCode = 201 then UploadResult.success
  else UploadResult.failure resp.statusCode resp.text

/-- The shallow embedding of `upload_with_real_progress` (src/app.py
lines 11-53).  Mirrors the source order: parse the repo identifier and
raise `ValueError` on a falsy owner (lines 12-16); access the file
(`os.path.getsize`, then `open`/read — one `fileRead` event; a missing
file raises `IOError` before any network call); run the chunked
base64-encoding read loop recording `pbar.update` amounts (lines
28-36); issue the single PUT (line 48); classify the response (lines
50-53). -/
def upload_with_real_progress (cfg : Config) (fs : FileSystem)
    (http : PutRequest → HttpResponse)
    (local_file_path github_file_path commit_message : String) : RunTrace :=
  if optStrFalsy (repoOwner cfg.repoName) then
    { result := Except.error (UploadError.configurationError repoFormatMsg)
      events := []
      progressUpdates := [] }
  else
    match fs local_file_path with
    | none =>
      { result := Except.error UploadError.ioError
        events := [Event.fileRead local_file_path]
        progressUpdates := [] }
    | some bytes =>
      { result := Except.ok
          (classify (http (mkRequest cfg github_file_path commit_message bytes)))
        events := [Event.fileRead local_file_path,
          Event.httpPut (mkRequest cfg github_file_path commit_message bytes)]
        progressUpdates := (chunks CHUNK_SIZE bytes).map List.length }

/-- The PUT requests appearing in an event trace, in order. -/
def putRequests (evs : List Event) : List PutRequest :=
  evs.filterMap fun e =>
    match e with
    | Event.httpPut r => some r
    | _ => none

/-- Equality is decidable on the result field of a run. -/
instance : DecidableEq (Except UploadError UploadResult) := fun a b => by
  cases a <;> cases b <;>
    first
      | exact isFalse (fun h => Except.noConfusion h)
      | exact decidable_of_iff _ ⟨fun h => by rw [h], fun h => Except.noConfusion h id⟩

/-- The read loop consumes nothing from an empty file. -/
theorem chunksGo_nil (C fuel : Nat) : chunksGo C fuel [] = [] := by
  cases fuel <;> simp [chunksGo]

/-- The fuel argument of `chunksGo` is irrelevant once it is at least
the file length: the loop stops by itself on the empty read. -/
theorem chunksGo_congr (C : Nat) (hC : 0 < C) :
    ∀ f1 f2 l, l.length ≤ f1 → l.length ≤ f2 → chunksGo C f1 l = chunksGo C f2 l := by
  intro f1
  induction f1 with
  | zero =>
    intro f2 l h1 _
    have : l = [] := List.eq_nil_of_length_eq_zero (Nat.le_zero.mp h1)
    subst this
    simp [chunksGo_nil]
  | succ f ih =>
    intro f2 l h1 h2
    cases l with
    | nil => simp [chunksGo_nil]
    | cons a l' =>
      cases f2 with
      | zero => simp at h2
      | succ g =>
        have htake : ((a :: l').take C).isEmpty = false := by
          cases C with
          | zero => exact absurd hC (by simp)
          | succ c => simp [List.take]
        have hdrop1 : ((a :: l').drop C).length ≤ f := by
          simp only [List.length_drop, List.length_cons]
          simp only [List.length_cons] at h1
          omega
        have hdrop2 : ((a :: l').drop C).length ≤ g := by
          simp only [List.length_drop, List.length_cons]
          simp only [List.length_cons] at h2
          omega
        simp only [chunksGo, htake, Bool.false_eq_true, if_false]
        rw [ih g _ hdrop1 hdrop2]

/-- The read loop yields no chunk for an empty file. -/
theorem chunks_nil (C : Nat) : chunks C [] = [] := by
  simp [chunks, chunksGo_nil]

/-- One iteration of the read loop: for a non-empty file the first
chunk is the first `C` bytes and the loop continues on the rest. -/
theorem chunks_eq_cons {C : Nat} (hC : 0 < C) {l : List Nat} (hl : l ≠ []) :
    chunks C l = l.take C :: chunks C (l.drop C) := by
  cases l with
  | nil => exact absurd rfl hl
  | cons a l' =>
    have htake : ((a :: l').take C).isEmpty = false := by
      cases C with
      | zero => exact absurd hC (by simp)
      | succ c => simp [List.take]
    show chunksGo C (a :: l').length (a :: l') = _
    simp only [List.length_cons, chunksGo, htake, Bool.false_eq_true, if_false]
    congr 1
    apply chunksGo_congr C hC
    · simp only [List.length_drop, List.length_cons]
      omega
    · exact Nat.le_refl _

/-- Concatenating the chunks read by the loop restores the file
contents exactly. -/
theorem chunks_flatten {C : Nat} (hC : 0 < C) (l : List Nat) :
    (chunks C l).flatten = l := by
  have main : ∀ n (l : List Nat), l.length ≤ n → (chunks C l).flatten = l := by
    intro n
    induction n with
    | zero =>
      intro l h
      have : l = [] := List.eq_nil_of_length_eq_zero (Nat.le_zero.mp h)
      simp [this, chunks_nil]
    | succ n ih =>
      intro l h
      cases l with
      | nil => simp [chunks_nil]
      | cons a l' =>
        rw [chunks_eq_cons hC (by simp)]
        have hlen : ((a :: l').drop C).length ≤ n := by
          simp only [List.length_drop, List.length_cons]
          simp only [List.length_cons] at h
          omega
        simp only [List.flatten_cons]
        rw [ih _ hlen, List.take_append_drop]
  exact main l.length l (Nat.le_refl _)

/-- The chunk lengths recorded by the loop sum to the file size. -/
theorem chunks_sum_length {C : Nat} (hC : 0 < C) (l : List Nat) :
    ((chunks C l).map List.length).sum = l.length := by
  rw [← List.length_flatten, chunks_flatten hC]

/-- A prefix of a list of byte counts sums to at most the whole sum. -/
theorem sum_take_le_sum (l : List Nat) (i : Nat) : (l.take i).sum ≤ l.sum := by
  conv_rhs => rw [← List.take_append_drop i l]
  rw [List.sum_append]
  exact Nat.le_add_right _ _

/-- Prefix sums of a list of byte counts are monotone. -/
theorem sum_take_mono (l : List Nat) {i j : Nat} (h : i ≤ j) :
    (l.take i).sum ≤ (l.take j).sum := by
  have heq : l.take i = (l.take j).take i := by
    rw [List.take_take, Nat.min_eq_left h]
  rw [heq]
  exact sum_take_le_sum _ _

/-- Unfolded run on the validated path: non-falsy owner and a readable
file.  One file read, one PUT, the classified response as the result,
and the chunk lengths as progress updates. -/
theorem upload_run_ok (cfg : Config) (fs : FileSystem)
    (http : PutRequest → HttpResponse) (lp gp cm : String) (bytes : List Nat)
    (hrepo : optStrFalsy (repoOwner cfg.repoName) = false)
    (hfs : fs lp = some bytes) :
    upload_with_real_progress cfg fs http lp gp cm =
      { result := Except.ok (classify (http (mkRequest cfg gp cm bytes)))
        events := [Event.fileRead lp, Event.httpPut (mkRequest cfg gp cm bytes)]
        progressUpdates := (chunks CHUNK_SIZE bytes).map List.length } := by
  simp [upload_with_real_progress, hrepo, hfs]

/-- Unfolded run when the repo identifier parses to a falsy owner: the
`ValueError` is raised with an empty event trace. -/
theorem upload_run_config_error (cfg : Config) (fs : FileSystem)
    (http : PutRequest → HttpResponse) (lp gp cm : String)
    (hrepo : optStrFalsy (repoOwner cfg.repoName) = true) :
    upload_with_real_progress cfg fs http lp gp cm =
      { result := Except.error (UploadError.configurationError repoFormatMsg)
        events := []
        progressUpdates := [] } := by
  simp [upload_with_real_progress, hrepo]

/-- Unfolded run when the file is missing or unreadable: the `IOError`
is raised after the file access attempt and before any PUT. -/
theorem upload_run_io_error (cfg : Config) (fs : FileSystem)
    (http : PutRequest → HttpResponse) (lp gp cm : String)
    (hrepo : optStrFalsy (repoOwner cfg.repoName) = false)
    (hfs : fs lp = none) :
    upload_with_real_progress cfg fs http lp gp cm =
      { result := Except.error UploadError.ioError
        events := [Event.fileRead lp]
        progressUpdates := [] } := by
  simp [upload_with_real_progress, hrepo, hfs]

/-- A well-formed demo configuration. -/
def demoCfg : Config :=
  { githubToken := "tok", branchName := "main", repoName := "octo/widgets" }

/-- A file system holding a three-byte file at every path. -/
def demoFs : FileSystem := fun _ => some [72, 105, 33]

/-- A file system holding a zero-byte file at every path. -/
def emptyFs : FileSystem := fun _ => some []

/-- A file system with no readable file at any path. -/
def noFs : FileSystem := fun _ => none

/-- An HTTP layer answering 201 Created. -/
def http201 : PutRequest → HttpResponse := fun _ => { statusCode := 201, text := "created" }

/-- An HTTP layer answering 403 with body `Bad credentials`. -/
def http403 : PutRequest → HttpResponse :=
  fun _ => { statusCode := 403, text := "Bad credentials" }

/-- A string differing from the empty string has a non-empty character
list. -/
theorem data_isEmpty_false_of_ne_empty (s : String) (h : s ≠ "") :
    s.data.isEmpty = false := by
  cases s with
  | mk data =>
    cases data with
    | nil => exact absurd rfl h
    | cons c cs => rfl

/-- Claim C2, amended: a repo identifier without a slash, or with an
empty owner segment before the first slash, makes
`upload_with_real_progress` raise the ConfigurationError (`ValueError`)
with no file access and no HTTP call; an empty repo segment after the
slash is not checked. -/
theorem c2_amended_invalid_repo (cfg : Config) (fs : FileSystem)
    (http : PutRequest → HttpResponse) (lp gp cm : String)
    (h : strContains cfg.repoName '/' = false
        ∨ (pySplit cfg.repoName '/').getD 0 "" = "") :
    upload_with_real_progress cfg fs http lp gp cm =
      { result := Except.error (UploadError.configurationError repoFormatMsg)
        events := []
        progressUpdates := [] } := by
  apply upload_run_config_error
  rcases h with h | h
  · simp [repoOwner, h, optStrFalsy]
  · cases hc : strContains cfg.repoName '/' with
    | false => simp [repoOwner, hc, optStrFalsy]
    | true =>
      have h' : ((pySplit cfg.repoName '/')[0]?.getD "") = "" := by
        simpa [List.getD] using h
      simp [repoOwner, hc, optStrFalsy, h']

/-- Witness for `c2_amended_invalid_repo` at the slash-free identifier
`norepo`. -/
theorem c2_amended_invalid_repo_witness :
    (strContains "norepo" '/' = false ∨ (pySplit "norepo" '/').getD 0 "" = "")
    ∧ upload_with_real_progress
        { githubToken := "tok", branchName := "main", repoName := "norepo" }
        demoFs http201 "f.txt" "remote.txt" "msg"
      = { result := Except.error (UploadError.configurationError repoFormatMsg)
          events := []
          progressUpdates := [] } :=
  ⟨Or.inl (by decide),
   c2_amended_invalid_repo
     { githubToken := "tok", branchName := "main", repoName := "norepo" }
     demoFs http201 "f.txt" "remote.txt" "msg" (Or.inl (by decide))⟩

/-- The run refuting claim C2 as stated: the repo identifier `octo/`
has an empty repo segment, so by the claim the upload should fail with
a ConfigurationError before any I/O. -/
def c2run : RunTrace :=
  upload_with_real_progress
    { githubToken := "tok", branchName := "main", repoName := "octo/" }
    emptyFs http201 "f.txt" "remote.txt" "msg"

/-- Claim C2 is false as stated: with repo identifier `octo/` (empty
repo segment) the code does not raise any error — the owner `octo` is
truthy, so the check at src/app.py line 15 passes — and the run reads
the file and issues the PUT. -/
theorem c2_counterexample :
    c2run.result = Except.ok UploadResult.success
    ∧ c2run.events ≠ []
    ∧ (putRequests c2run.events).length = 1 := by
  decide

/-- Claim C3: once the PUT is issued, the result is exactly the
classification of the HTTP response — status 200 or 201 gives Success,
any other status gives Failure carrying that status code and the
response body text — and no exception is raised (the result is
`Except.ok`). -/
theorem c3_response_classification (cfg : Config) (fs : FileSystem)
    (http : PutRequest → HttpResponse) (lp gp cm : String) (bytes : List Nat)
    (hrepo : optStrFalsy (repoOwner cfg.repoName) = false)
    (hfs : fs lp = some bytes) :
    (upload_with_real_progress cfg fs http lp gp cm).result
      = Except.ok (classify (http (mkRequest cfg gp cm bytes)))
    ∧ ∀ resp : HttpResponse,
        (resp.statusCode = 200 ∨ resp.statusCode = 201 →
          classify resp = UploadResult.success)
        ∧ (¬(resp.statusCode = 200 ∨ resp.statusCode = 201) →
          classify resp = UploadResult.failure resp.statusCode resp.text) := by
  refine ⟨?_, fun resp => ⟨fun h => ?_, fun h => ?_⟩⟩
  · rw [upload_run_ok cfg fs http lp gp cm bytes hrepo hfs]
  · rw [classify, if_pos h]
  · rw [classify, if_neg h]

/-- Witness for `c3_response_classification`: a mocked API responding
403 with body `Bad credentials` yields `Failure 403 "Bad credentials"`
without raising. -/
theorem c3_response_classification_witness :
    optStrFalsy (repoOwner demoCfg.repoName) = false
    ∧ demoFs "f.txt" = some [72, 105, 33]
    ∧ classify (http403 (mkRequest demoCfg "remote.txt" "msg" [72, 105, 33]))
        = UploadResult.failure 403 "Bad credentials"
    ∧ ((upload_with_real_progress demoCfg demoFs http403 "f.txt" "remote.txt" "msg").result
        = Except.ok (classify (http403 (mkRequest demoCfg "remote.txt" "msg" [72, 105, 33])))
      ∧ ∀ resp : HttpResponse,
          (resp.statusCode = 200 ∨ resp.statusCode = 201 →
            classify resp = UploadResult.success)
          ∧ (¬(resp.statusCode = 200 ∨ resp.statusCode = 201) →
            classify resp = UploadResult.failure resp.statusCode resp.text)) :=
  ⟨by decide, rfl, by decide,
   c3_response_classification demoCfg demoFs http403 "f.txt" "remote.txt" "msg"
     [72, 105, 33] (by decide) rfl⟩

/-- Claim C4: for a readable file the byte counts passed to the
progress bar over the read loop sum to exactly the file size. -/
theorem c4_progress_sums_to_size (cfg : Config) (fs : FileSystem)
    (http : PutRequest → HttpResponse) (lp gp cm : String) (bytes : List Nat)
    (hrepo : optStrFalsy (repoOwner cfg.repoName) = false)
    (hfs : fs lp = some bytes) :
    (upload_with_real_progress cfg fs http lp gp cm).progressUpdates.sum
      = bytes.length := by
  rw [upload_run_ok cfg fs http lp gp cm bytes hrepo hfs]
  exact chunks_sum_length (by decide) bytes

/-- Witness for `c4_progress_sums_to_size` on a three-byte file. -/
theorem c4_progress_sums_to_size_witness :
    optStrFalsy (repoOwner demoCfg.repoName) = false
    ∧ demoFs "f.txt" = some [72, 105, 33]
    ∧ (upload_with_real_progress demoCfg demoFs http201 "f.txt" "remote.txt" "msg").progressUpdates.sum
        = ([72, 105, 33] : List Nat).length :=
  ⟨by decide, rfl,
   c4_progress_sums_to_size demoCfg demoFs http201 "f.txt" "remote.txt" "msg"
     [72, 105, 33] (by decide) rfl⟩

/-- Claim C5: whenever the invocation ends in a ConfigurationError or
IOError, no HTTP PUT request appears in its event trace — both errors
are raised strictly before the network step. -/
theorem c5_errors_precede_network (cfg : Config) (fs : FileSystem)
    (http : PutRequest → HttpResponse) (lp gp cm : String) (e : UploadError)
    (h : (upload_with_real_progress cfg fs http lp gp cm).result = Except.error e) :
    putRequests (upload_with_real_progress cfg fs http lp gp cm).events = [] := by
  cases hrepo : optStrFalsy (repoOwner cfg.repoName) with
  | true =>
    rw [upload_run_config_error cfg fs http lp gp cm hrepo]
    rfl
  | false =>
    cases hfs : fs lp with
    | none =>
      rw [upload_run_io_error cfg fs http lp gp cm hrepo hfs]
      rfl
    | some bytes =>
      rw [upload_run_ok cfg fs http lp gp cm bytes hrepo hfs] at h
      simp at h

/-- Witness for `c5_errors_precede_network` on a missing file: the run
raises IOError and its trace holds no PUT. -/
theorem c5_errors_precede_network_witness :
    (upload_with_real_progress demoCfg noFs http201 "f.txt" "remote.txt" "msg").result
      = Except.error UploadError.ioError
    ∧ putRequests (upload_with_real_progress demoCfg noFs http201 "f.txt" "remote.txt" "msg").events
      = [] :=
  ⟨by decide,
   c5_errors_precede_network demoCfg noFs http201 "f.txt" "remote.txt" "msg"
     UploadError.ioError (by decide)⟩

/-- Claim C6: for a zero-byte file the run issues exactly one PUT, its
body carries an empty content payload, and a 201 response is reported
as Success. -/
theorem c6_zero_byte_file (cfg : Config) (fs : FileSystem)
    (http : PutRequest → HttpResponse) (lp gp cm : String)
    (hrepo : optStrFalsy (repoOwner cfg.repoName) = false)
    (hfs : fs lp = some [])
    (h201 : ∀ req, (http req).statusCode = 201) :
    putRequests (upload_with_real_progress cfg fs http lp gp cm).events
      = [mkRequest cfg gp cm []]
    ∧ (mkRequest cfg gp cm []).content = ""
    ∧ (upload_with_real_progress cfg fs http lp gp cm).result
      = Except.ok UploadResult.success := by
  rw [upload_run_ok cfg fs http lp gp cm [] hrepo hfs]
  refine ⟨rfl, rfl, ?_⟩
  show Except.ok (classify (http (mkRequest cfg gp cm []))) = _
  rw [classify, if_pos (Or.inr (h201 _))]

/-- Witness for `c6_zero_byte_file` on the empty file system and a
201-answering API. -/
theorem c6_zero_byte_file_witness :
    optStrFalsy (repoOwner demoCfg.repoName) = false
    ∧ emptyFs "f.txt" = some []
    ∧ (∀ req, (http201 req).statusCode = 201)
    ∧ (putRequests (upload_with_real_progress demoCfg emptyFs http201 "f.txt" "remote.txt" "msg").events
        = [mkRequest demoCfg "remote.txt" "msg" []]
      ∧ (mkRequest demoCfg "remote.txt" "msg" []).content = ""
      ∧ (upload_with_real_progress demoCfg emptyFs http201 "f.txt" "remote.txt" "msg").result
        = Except.ok UploadResult.success) :=
  ⟨by decide, rfl, fun _ => rfl,
   c6_zero_byte_file demoCfg emptyFs http201 "f.txt" "remote.txt" "msg"
     (by decide) rfl (fun _ => rfl)⟩

/-- Claim C7: every invocation that completes (returns rather than
raises) has exactly one HTTP PUT in its event trace — one network
attempt, no retries, whatever the response status was. -/
theorem c7_exactly_one_put (cfg : Config) (fs : FileSystem)
    (http : PutRequest → HttpResponse) (lp gp cm : String) (r : UploadResult)
    (h : (upload_with_real_progress cfg fs http lp gp cm).result = Except.ok r) :
    (putRequests (upload_with_real_progress cfg fs http lp gp cm).events).length
      = 1 := by
  cases hrepo : optStrFalsy (repoOwner cfg.repoName) with
  | true =>
    rw [upload_run_config_error cfg fs http lp gp cm hrepo] at h
    simp at h
  | false =>
    cases hfs : fs lp with
    | none =>
      rw [upload_run_io_error cfg fs http lp gp cm hrepo hfs] at h
      simp at h
    | some bytes =>
      rw [upload_run_ok cfg fs http lp gp cm bytes hrepo hfs]
      rfl

/-- Witness for `c7_exactly_one_put`: the run completing with a 403
Failure still has exactly one PUT in its trace. -/
theorem c7_exactly_one_put_witness :
    (upload_with_real_progress demoCfg demoFs http403 "f.txt" "remote.txt" "msg").result
      = Except.ok (UploadResult.failure 403 "Bad credentials")
    ∧ (putRequests (upload_with_real_progress demoCfg demoFs http403 "f.txt" "remote.txt" "msg").events).length
      = 1 :=
  ⟨by decide,
   c7_exactly_one_put demoCfg demoFs http403 "f.txt" "remote.txt" "msg"
     (UploadResult.failure 403 "Bad credentials") (by decide)⟩

/-- Claim C8: over the run of the read loop the reported cumulative
byte count — the prefix sums of the recorded progress updates — is
monotonically non-decreasing, and never exceeds the total file size
taken at the start (the file contents are fixed for the run). -/
theorem c8_progress_monotone_bounded (cfg : Config) (fs : FileSystem)
    (http : PutRequest → HttpResponse) (lp gp cm : String) (bytes : List Nat)
    (hrepo : optStrFalsy (repoOwner cfg.repoName) = false)
    (hfs : fs lp = some bytes) :
    (∀ i j, i ≤ j →
      ((upload_with_real_progress cfg fs http lp gp cm).progressUpdates.take i).sum
        ≤ ((upload_with_real_progress cfg fs http lp gp cm).progressUpdates.take j).sum)
    ∧ ∀ i,
      ((upload_with_real_progress cfg fs http lp gp cm).progressUpdates.take i).sum
        ≤ bytes.length := by
  rw [upload_run_ok cfg fs http lp gp cm bytes hrepo hfs]
  refine ⟨fun i j hij => sum_take_mono _ hij, fun i => ?_⟩
  calc (((chunks CHUNK_SIZE bytes).map List.length).take i).sum
      ≤ ((chunks CHUNK_SIZE bytes).map List.length).sum := sum_take_le_sum _ _
    _ = bytes.length := chunks_sum_length (by decide) bytes

/-- Witness for `c8_progress_monotone_bounded` on a three-byte file. -/
theorem c8_progress_monotone_bounded_witness :
    optStrFalsy (repoOwner demoCfg.repoName) = false
    ∧ demoFs "f.txt" = some [72, 105, 33]
    ∧ ((∀ i j, i ≤ j →
        ((upload_with_real_progress demoCfg demoFs http201 "f.txt" "remote.txt" "msg").progressUpdates.take i).sum
          ≤ ((upload_with_real_progress demoCfg demoFs http201 "f.txt" "remote.txt" "msg").progressUpdates.take j).sum)
      ∧ ∀ i,
        ((upload_with_real_progress demoCfg demoFs http201 "f.txt" "remote.txt" "msg").progressUpdates.take i).sum
          ≤ ([72, 105, 33] : List Nat).length) :=
  ⟨by decide, rfl,
   c8_progress_monotone_bounded demoCfg demoFs http201 "f.txt" "remote.txt" "msg"
     [72, 105, 33] (by decide) rfl⟩

/-- Claim C9: an invocation that completes — valid repo identifier and
readable file, so no exception escapes — returns an `UploadResult`
value to its caller. -/
theorem c9_returns_upload_result (cfg : Config) (fs : FileSystem)
    (http : PutRequest → HttpResponse) (lp gp cm : String) (bytes : List Nat)
    (hrepo : optStrFalsy (repoOwner cfg.repoName) = false)
    (hfs : fs lp = some bytes) :
    ∃ r : UploadResult,
      (upload_with_real_progress cfg fs http lp gp cm).result = Except.ok r := by
  refine ⟨classify (http (mkRequest cfg gp cm bytes)), ?_⟩
  rw [upload_run_ok cfg fs http lp gp cm bytes hrepo hfs]

/-- Witness for `c9_returns_upload_result` on the demo run. -/
theorem c9_returns_upload_result_witness :
    optStrFalsy (repoOwner demoCfg.repoName) = false
    ∧ demoFs "f.txt" = some [72, 105, 33]
    ∧ ∃ r : UploadResult,
        (upload_with_real_progress demoCfg demoFs http201 "f.txt" "remote.txt" "msg").result
          = Except.ok r :=
  ⟨by decide, rfl,
   c9_returns_upload_result demoCfg demoFs http201 "f.txt" "remote.txt" "msg"
     [72, 105, 33] (by decide) rfl⟩

/-- Claim C10: when the repo identifier contains at least one slash,
the PUT url is built from the first slash-separated segment as the
owner and the second segment as the repo name; every later segment is
discarded. -/
theorem c10_url_from_first_two_segments (cfg : Config) (fs : FileSystem)
    (http : PutRequest → HttpResponse) (lp gp cm : String) (bytes : List Nat)
    (hslash : strContains cfg.repoName '/' = true)
    (howner : (pySplit cfg.repoName '/').getD 0 "" ≠ "")
    (hfs : fs lp = some bytes) :
    putRequests (upload_with_real_progress cfg fs http lp gp cm).events
      = [mkRequest cfg gp cm bytes]
    ∧ (mkRequest cfg gp cm bytes).url
      = "https://api.github.com/repos/" ++ (pySplit cfg.repoName '/').getD 0 ""
        ++ "/" ++ (pySplit cfg.repoName '/').getD 1 "" ++ "/contents/" ++ gp := by
  have hrepo : optStrFalsy (repoOwner cfg.repoName) = false := by
    simp only [repoOwner, hslash, if_true, optStrFalsy]
    exact data_isEmpty_false_of_ne_empty _ (by simpa [List.getD] using howner)
  constructor
  · rw [upload_run_ok cfg fs http lp gp cm bytes hrepo hfs]
    rfl
  · simp [mkRequest, apiUrl, repoOwner, repoShortName, hslash]

/-- Witness for `c10_url_from_first_two_segments` at the identifier
`a/b/c`: the owner is `a`, the targeted repo is `b`, and the segment
`c` is discarded. -/
theorem c10_url_from_first_two_segments_witness :
    strContains "a/b/c" '/' = true
    ∧ (pySplit "a/b/c" '/').getD 0 "" ≠ ""
    ∧ (pySplit "a/b/c" '/').getD 0 "" = "a"
    ∧ (pySplit "a/b/c" '/').getD 1 "" = "b"
    ∧ demoFs "f.txt" = some [72, 105, 33]
    ∧ (putRequests (upload_with_real_progress
          { githubToken := "tok", branchName := "main", repoName := "a/b/c" }
          demoFs http201 "f.txt" "remote.txt" "msg").events
        = [mkRequest { githubToken := "tok", branchName := "main", repoName := "a/b/c" }
            "remote.txt" "msg" [72, 105, 33]]
      ∧ (mkRequest { githubToken := "tok", branchName := "main", repoName := "a/b/c" }
            "remote.txt" "msg" [72, 105, 33]).url
        = "https://api.github.com/repos/" ++ (pySplit "a/b/c" '/').getD 0 ""
          ++ "/" ++ (pySplit "a/b/c" '/').getD 1 "" ++ "/contents/" ++ "remote.txt") :=
  ⟨by decide, by decide, by decide, by decide, rfl,
   c10_url_from_first_two_segments
     { githubToken := "tok", branchName := "main", repoName := "a/b/c" }
     demoFs http201 "f.txt" "remote.txt" "msg" [72, 105, 33]
     (by decide) (by decide) rfl⟩

/-- Encoding three zero bytes prepends four `A` characters. -/
theorem b64encode_triple_zero (rest : List Nat) :
    b64encode (0 :: 0 :: 0 :: rest) = 'A' :: 'A' :: 'A' :: 'A' :: b64encode rest := rfl

/-- Decoding four `A` characters prepends three zero bytes. -/
theorem b64decode_quadA (xs : List Char) :
    b64decode ('A' :: 'A' :: 'A' :: 'A' :: xs)
      = (b64decode xs).bind (fun t => some (0 :: 0 :: 0 :: t)) := by
  cases xs <;> rfl

/-- Decoding a block of `4 * k` `A` characters followed by anything
prepends `3 * k` zero bytes to the decoding of the remainder. -/
theorem b64decode_replicateA : ∀ (k : Nat) (xs : List Char),
    b64decode (List.replicate (4 * k) 'A' ++ xs)
      = (b64decode xs).map (fun t => List.replicate (3 * k) 0 ++ t)
  | 0, xs => by
    cases h : b64decode xs <;> simp [h]
  | k + 1, xs => by
    have h4 : 4 * (k + 1) = 4 + 4 * k := by ring
    have h3 : 3 * (k + 1) = 3 + 3 * k := by ring
    rw [h4, h3, List.replicate_add, List.replicate_add]
    show b64decode ('A' :: 'A' :: 'A' :: 'A' :: (List.replicate (4 * k) 'A' ++ xs)) = _
    rw [b64decode_quadA, b64decode_replicateA k xs]
    cases b64decode xs <;> rfl

/-- The base64 encoding of `3 * k + 1` zero bytes: `4 * k` `A`
characters, then the padded final group `AA==`. -/
theorem b64encode_replicate_zero_mod1 : ∀ k : Nat,
    b64encode (List.replicate (3 * k + 1) 0)
      = List.replicate (4 * k) 'A' ++ ['A', 'A', '=', '=']
  | 0 => by decide
  | k + 1 => by
    have h3 : 3 * (k + 1) + 1 = 3 + (3 * k + 1) := by ring
    have h4 : 4 * (k + 1) = 4 + 4 * k := by ring
    rw [h3, h4, List.replicate_add 3 (3 * k + 1) (0 : Nat),
      List.replicate_add 4 (4 * k) 'A']
    show b64encode (0 :: 0 :: 0 :: List.replicate (3 * k + 1) 0)
      = 'A' :: 'A' :: 'A' :: 'A' :: (List.replicate (4 * k) 'A' ++ ['A', 'A', '=', '='])
    rw [b64encode_triple_zero, b64encode_replicate_zero_mod1 k]

/-- The base64 encoding of `3 * k + 2` zero bytes: `4 * k` `A`
characters, then the padded final group `AAA=`. -/
theorem b64encode_replicate_zero_mod2 : ∀ k : Nat,
    b64encode (List.replicate (3 * k + 2) 0)
      = List.replicate (4 * k) 'A' ++ ['A', 'A', 'A', '=']
  | 0 => by decide
  | k + 1 => by
    have h3 : 3 * (k + 1) + 2 = 3 + (3 * k + 2) := by ring
    have h4 : 4 * (k + 1) = 4 + 4 * k := by ring
    rw [h3, h4, List.replicate_add 3 (3 * k + 2) (0 : Nat),
      List.replicate_add 4 (4 * k) 'A']
    show b64encode (0 :: 0 :: 0 :: List.replicate (3 * k + 2) 0)
      = 'A' :: 'A' :: 'A' :: 'A' :: (List.replicate (4 * k) 'A' ++ ['A', 'A', 'A', '='])
    rw [b64encode_triple_zero, b64encode_replicate_zero_mod2 k]

/-- The failing input for claim C1: a 4097-byte file of zero bytes —
one byte more than the 4096-byte reference chunk, so the read loop
produces two chunks, and 4096 is not a multiple of 3. -/
def zeros4097 : List Nat := List.replicate 4097 0

/-- The read loop splits the 4097-byte file into a full 4096-byte
chunk followed by a one-byte chunk. -/
theorem chunks_zeros4097 :
    chunks CHUNK_SIZE zeros4097 = [List.replicate 4096 0, [0]] := by
  rw [chunks_eq_cons (C := CHUNK_SIZE) (by decide)
    (by simp only [zeros4097, ne_eq, List.replicate_eq_nil_iff]; norm_num)]
  have htake : zeros4097.take CHUNK_SIZE = List.replicate 4096 0 := by
    rw [zeros4097, List.take_replicate]
    norm_num [CHUNK_SIZE]
  have hdrop : zeros4097.drop CHUNK_SIZE = [0] := by
    rw [zeros4097, List.drop_replicate]
    norm_num [CHUNK_SIZE]
  rw [htake, hdrop, show chunks CHUNK_SIZE [0] = [[0]] from by decide]

/-- The payload the code transmits for the 4097-byte zero file: the
concatenation of the two independently encoded chunks — 5460 `A`
characters, the mid-payload padded group `AA==` closing the first
chunk, then the second chunk's `AA==`. -/
theorem encodePayload_zeros4097 :
    (encodePayload zeros4097).data
      = List.replicate 5460 'A' ++ ['A', 'A', '=', '=', 'A', 'A', '=', '='] := by
  rw [encodePayload, chunks_zeros4097]
  show b64encode (List.replicate 4096 0) ++ (b64encode [0] ++ [])
    = List.replicate 5460 'A' ++ ['A', 'A', '=', '=', 'A', 'A', '=', '=']
  rw [show (4096 : Nat) = 3 * 1365 + 1 from by norm_num, b64encode_replicate_zero_mod1,
    show (4 * 1365 : Nat) = 5460 from by norm_num,
    show b64encode [0] = ['A', 'A', '=', '='] from by decide,
    List.append_assoc]
  exact congrArg (fun t => List.replicate 5460 'A' ++ t) (by decide)

/-- Strict base64 decoding rejects the transmitted payload for the
4097-byte zero file: the padding of the first chunk sits in a
non-final group. -/
theorem b64decode_payload_zeros4097 :
    b64decode (encodePayload zeros4097).data = none := by
  rw [encodePayload_zeros4097,
    show (5460 : Nat) = 4 * 1365 from by norm_num, b64decode_replicateA,
    show b64decode ['A', 'A', '=', '=', 'A', 'A', '=', '='] = none from by decide]
  rfl

/-- Encoding the whole 4097-byte file at once does round-trip under
the same strict decoder. -/
theorem b64decode_whole_zeros4097 :
    b64decode (b64encode zeros4097) = some zeros4097 := by
  have hz : zeros4097 = List.replicate (3 * 1365 + 2) 0 := by
    simp only [zeros4097]
  rw [hz, b64encode_replicate_zero_mod2, b64decode_replicateA,
    show b64decode ['A', 'A', 'A', '='] = some [0, 0] from by decide]
  show some (List.replicate (3 * 1365) 0 ++ [0, 0])
    = some (List.replicate (3 * 1365 + 2) (0 : Nat))
  exact congrArg some (List.replicate_add (3 * 1365) 2 (0 : Nat)).symm

/-- The run refuting the claimed round-trip: uploading the 4097-byte
zero file through the embedded code. -/
def c1run : RunTrace :=
  upload_with_real_progress demoCfg (fun _ => some zeros4097) http201
    "f.bin" "remote.bin" "msg"

/-- Claim C1 names a code bug: the run issues exactly one PUT, whose
content payload is NOT a valid base64 encoding of the file — strict
decoding rejects it because the first 4096-byte chunk (4096 not being
a multiple of 3) ends in `==` padding mid-payload — whereas encoding
the whole file at once would round-trip to the original bytes. -/
theorem c1_chunked_payload_corrupted :
    ((putRequests c1run.events).map fun r => b64decode r.content.data) = [none]
    ∧ b64decode (b64encode zeros4097) = some zeros4097 := by
  refine ⟨?_, b64decode_whole_zeros4097⟩
  have hrun := upload_run_ok demoCfg (fun _ => some zeros4097) http201
    "f.bin" "remote.bin" "msg" zeros4097 (by decide) rfl
  simp only [c1run, hrun]
  show [b64decode (mkRequest demoCfg "remote.bin" "msg" zeros4097).content.data] = [none]
  rw [show (mkRequest demoCfg "remote.bin" "msg" zeros4097).content
      = encodePayload zeros4097 from rfl,
    b64decode_payload_zeros4097]
